import Mathlib

/-!
Shallow embedding of the go-pdf-converter conversion pipeline and its
HTTP/persistence collaborators, together with proofs about it.

Sources embedded:
  - `ConvertToPDF`, `convertImageToPDF`, `convertTextToPDF`,
    `convertDocxToPDF` from the converter file (the variant with the
    `.docx` branch);
  - `Database.GetFiles` from database.go;
  - the conversion/persistence loop of `HandleUpload` and the
    record-fetch step of `HandleDownloadZip` from handlers.go.

Modelling conventions:
  - bytes are natural numbers; byte buffers are lists of naturals;
  - Go `float64` arithmetic is modelled exactly over `ℚ` (every branch
    decision and every output value appearing in the claims is far from
    any rounding boundary, and the literals 72, 25.4, 210, 297 are exact
    decimals);
  - the external image decoder (`image.Decode` plus gofpdf's own image
    registration, both pure functions of the input bytes) is a function
    parameter `decode` returning the pixel dimensions on success;
  - gofpdf's PDF serialisation is abstracted at two levels: the layout
    content is modelled by the exact sequence of layout calls the source
    makes (page size, placed image, `MultiCell` blocks), which is an
    injective image of the emitted bytes for the geometry and content
    claims; for the byte-identity question, `convertImageToPDFOutput`
    additionally pairs that content with the clock-derived
    `/CreationDate` entry gofpdf's `Output` embeds, since the source
    never calls `SetCreationDate`;
  - the file system, the external LibreOffice process and the database
    are modelled by explicit outcome parameters (`World`, per-file
    outcome flags, a `lookup` function), and `convertDocxToPDF` returns,
    next to its result, the list of temp-directory files still present
    when the call returns.
-/

namespace PdfConv

/-- Byte buffers are lists of naturals, one per byte. -/
abbrev ByteSeq := List Nat

/-- Helper for `filepathExt`: scan the reversed character list of the
path, accumulating the characters seen so far; stop with `""` at a path
separator, and at a dot return the dot followed by the accumulated
suffix. -/
def extAux : List Char → List Char → String
  | [], _ => ""
  | c :: rest, acc =>
    if c = '/' then ""
    else if c = '.' then String.mk ('.' :: acc)
    else extAux rest (c :: acc)

/-- Go `filepath.Ext`: the suffix beginning at the final dot in the
final path element; empty if there is no dot. -/
def filepathExt (path : String) : String :=
  extAux path.data.reverse []

/-- Go `strings.ToLower`, restricted to ASCII case mapping (the only
characters relevant to extension dispatch). -/
def goToLower (s : String) : String :=
  String.mk (s.data.map Char.toLower)

/-- Go `strings.TrimSuffix`: drop `suf` from the end of `s` when it is
a suffix, otherwise return `s` unchanged. -/
def trimSuffix (s suf : String) : String :=
  if suf.data.isSuffixOf s.data then
    String.mk (s.data.take (s.data.length - suf.data.length))
  else s

/-- Go `filepath.Join` for a directory and a separator-free file name. -/
def filepathJoin (dir name : String) : String :=
  dir ++ "/" ++ name

/-- Millimetre page size (a pair of `float64` in the source). -/
structure SizeMM where
  wd : ℚ
  ht : ℚ
deriving Repr, DecidableEq

/-- A4 width bound in mm (`maxWidth`, converter line 51). -/
def maxWidthA4 : ℚ := 210

/-- A4 height bound in mm (`maxHeight`, converter line 52). -/
def maxHeightA4 : ℚ := 297

/-- Pixel-to-millimetre conversion at the fixed 72 DPI:
`mm = (pixels / 72) * 25.4` (converter lines 45-48). -/
def pxToMM (px : ℚ) : ℚ := (px / 72) * 25.4

/-- Page-size computation of `convertImageToPDF` (converter lines
44-63): convert both pixel dimensions to mm; if either exceeds its A4
bound, branch on `widthMM > heightMM`: clamp the width to 210 and derive
the height from `ratio = width / height`, otherwise clamp the height to
297 and derive the width from the same ratio. -/
def imagePageSize (width height : ℚ) : SizeMM :=
  let widthMM := pxToMM width
  let heightMM := pxToMM height
  if widthMM > maxWidthA4 ∨ heightMM > maxHeightA4 then
    let ratio := width / height
    if widthMM > heightMM then
      { wd := maxWidthA4, ht := maxWidthA4 / ratio }
    else
      { wd := maxHeightA4 * ratio, ht := maxHeightA4 }
  else
    { wd := widthMM, ht := heightMM }

/-- Classified conversion failures (the error taxonomy of the spec). -/
inductive ConvError where
  /-- `unsupported file type: %s` from the dispatcher default branch. -/
  | unsupportedFormat (ext : String)
  /-- `failed to decode image` (or a gofpdf image-registration error). -/
  | decodeError
  /-- `failed to write temp files` on the external-document path. -/
  | writeError
  /-- `libreoffice conversion failed`, carrying the captured stderr. -/
  | conversionToolError (stderrText : String)
  /-- `failed to read converted PDF`, carrying the expected path. -/
  | outputReadError (path : String)
deriving Repr, DecidableEq

/-- One `pdf.ImageOptions(name, x, y, w, h, ...)` placement call. -/
structure ImagePlacement where
  name : String
  x : ℚ
  y : ℚ
  w : ℚ
  h : ℚ
  imageType : String
  data : ByteSeq
deriving Repr, DecidableEq

/-- Observable content of the produced PDF bytes, one constructor per
converter: the image converter emits one custom-sized page holding one
placed image; the text converter hands the layout engine an ordered list
of `MultiCell` blocks on A4 pages; the external-document converter
returns the bytes read back from the tool's output file. -/
inductive ConvOutput where
  | imagePDF (page : SizeMM) (img : ImagePlacement)
  | textPDF (blocks : List ByteSeq)
  | docxPDF (bytes : ByteSeq)
deriving Repr, DecidableEq

/-- External image decoder: `image.Decode` composed with gofpdf's image
registration, both pure functions of the input bytes; returns the pixel
`(width, height)` of `img.Bounds()` on success. -/
abbrev Decoder := ByteSeq → Option (Nat × Nat)

/-- `convertImageToPDF` (converter lines 32-109): decode the image,
compute the (possibly A4-capped) page size, pick the gofpdf image type
from the lower-cased extension (`png` only for `.png`, otherwise `jpg`),
and emit a single page with the image placed at the origin filling the
page exactly. -/
def convertImageToPDF (decode : Decoder) (filename : String) (data : ByteSeq) :
    Except ConvError ConvOutput :=
  match decode data with
  | none => .error .decodeError
  | some (dx, dy) =>
    let size := imagePageSize (dx : ℚ) (dy : ℚ)
    let ext := goToLower (filepathExt filename)
    let imageType := if ext = ".png" then "png" else "jpg"
    .ok (.imagePDF size
      { name := filename, x := 0, y := 0, w := size.wd, h := size.ht,
        imageType := imageType, data := data })

/-- Go `strings.Split(text, "\n")` at the byte level: split the buffer
on each occurrence of `sep`, producing one piece more than the number of
separators (the empty buffer yields one empty piece). -/
def splitOnByte (sep : Nat) : ByteSeq → List ByteSeq
  | [] => [[]]
  | b :: rest =>
    if b = sep then [] :: splitOnByte sep rest
    else
      match splitOnByte sep rest with
      | [] => [[b]]
      | line :: more => (b :: line) :: more

/-- Newline byte, the separator used by `convertTextToPDF`. -/
def newlineByte : Nat := 10

/-- `convertTextToPDF` (converter lines 112-139): treat the bytes as
text, split on newlines, and hand each line in order to the layout
engine as one wrapped `MultiCell` block (pagination is the engine's
job; an in-memory buffer output cannot fail). -/
def convertTextToPDF (_filename : String) (data : ByteSeq) :
    Except ConvError ConvOutput :=
  .ok (.textPDF (splitOnByte newlineByte data))

/-- Inverse of `splitOnByte`: re-join pieces with the separator. -/
def joinLines (sep : Nat) : List ByteSeq → ByteSeq
  | [] => []
  | [l] => l
  | l :: ls => l ++ sep :: joinLines sep ls

/-- Outcomes of the effectful steps of one `convertDocxToPDF` call:
whether writing the temp input succeeds, whether the external process
exits zero (false covers both launch failure and nonzero exit), what it
printed to stderr, whether it left the expected output file behind, and
whether reading that file back succeeds and with which content. -/
structure World where
  tmpDir : String
  writeOk : Bool
  runOk : Bool
  stderrText : String
  outputCreated : Bool
  outputReadable : Bool
  outputContent : ByteSeq
deriving Repr, DecidableEq

/-- Expected output path `<temp-dir>/<basename-without-extension>.pdf`
(converter lines 221-224). -/
def docxOutputPath (tmpDir filename : String) : String :=
  filepathJoin tmpDir (trimSuffix filename (filepathExt filename) ++ ".pdf")

/-- `convertDocxToPDF` (converter lines 197-236). Returns the result
together with the temp-directory files still present when the call
returns. Control flow of the source: a failed `os.WriteFile` returns
before the input-removal `defer` is registered (the input file is then
absent); after that the input file is always removed by its `defer`; a
failed `cmd.Run` returns a `conversionToolError` (the output file, if
the tool created one, has no removal scheduled yet); a failed
`os.ReadFile` of the expected output returns before the output-removal
`defer` is registered, so an existing-but-unreadable output file is left
behind; on a successful read both defers remove both files. -/
def convertDocxToPDF (w : World) (filename : String) (_data : ByteSeq) :
    Except ConvError ByteSeq × List String :=
  let outputFile := docxOutputPath w.tmpDir filename
  if ¬ w.writeOk then
    (.error .writeError, [])
  else if ¬ w.runOk then
    (.error (.conversionToolError w.stderrText),
      if w.outputCreated then [outputFile] else [])
  else if ¬ w.outputCreated then
    (.error (.outputReadError outputFile), [])
  else if ¬ w.outputReadable then
    (.error (.outputReadError outputFile), [outputFile])
  else
    (.ok w.outputContent, [])

/-- `ConvertToPDF` (converter lines 48-61, the `.docx` variant):
dispatch on the lower-cased filename extension; unmatched extensions
fail with `unsupported file type: %s` carrying that lower-cased
extension. Alongside the result, the list of temp-directory files still
present is returned (the in-memory image and text paths touch none). -/
def ConvertToPDF (w : World) (decode : Decoder) (filename : String) (data : ByteSeq) :
    Except ConvError ConvOutput × List String :=
  let ext := goToLower (filepathExt filename)
  if ext = ".jpg" ∨ ext = ".jpeg" ∨ ext = ".png" then
    (convertImageToPDF decode filename data, [])
  else if ext = ".txt" then
    (convertTextToPDF filename data, [])
  else if ext = ".docx" then
    let r := convertDocxToPDF w filename data
    (Except.map ConvOutput.docxPDF r.1, r.2)
  else
    (.error (.unsupportedFormat ext), [])

/-- Creation-date entry that gofpdf's `Output` writes into the
document's info dictionary (`/CreationDate (D:YYYYMMDDHHmmSS...)`):
the source never calls `SetCreationDate`, so the library fills it from
`time.Now()`, the wall clock at invocation time. Modelled as the byte
codes of the decimal digits of the clock reading. -/
def creationDateBytes (clock : Nat) : ByteSeq :=
  (Nat.toDigits 10 clock).map Char.toNat

/-- Byte-stream-level view of an emitted image PDF: two byte-identical
documents must agree both on the serialised layout content and on the
embedded clock-derived creation date. (gofpdf's unsorted
resource-catalog map ordering adds further byte nondeterminism that is
not modelled; the creation date alone already separates invocations at
different times.) -/
structure ImagePDFBytes where
  content : ConvOutput
  creationDate : ByteSeq
deriving Repr, DecidableEq

/-- `convertImageToPDF` together with `pdf.Output`'s byte serialisation
(converter lines 99-104): the emitted bytes carry the layout content
and the `/CreationDate` taken from the clock at invocation time. -/
def convertImageToPDFOutput (clock : Nat) (decode : Decoder) (fn : String)
    (data : ByteSeq) : Except ConvError ImagePDFBytes :=
  Except.map (fun doc => ⟨doc, creationDateBytes clock⟩)
    (convertImageToPDF decode fn data)

/-- Stored file row of the `files` table (database.go lines 11-16;
the timestamp is irrelevant to the claims). -/
structure FileRec where
  id : Int
  originalName : String
  pdfData : ByteSeq
deriving Repr, DecidableEq

/-- `Database.GetFiles` (database.go lines 68-81): look each id up via
`GetFile` (modelled by `lookup`, `none` standing for any row/scan
error), log-and-skip failures, collect the surviving records in input
order, and return a `nil` error unconditionally. -/
def GetFiles (lookup : Int → Option FileRec) : List Int → List FileRec × Option String
  | [] => ([], none)
  | id :: rest =>
    let r := GetFiles lookup rest
    match lookup id with
    | none => r
    | some record => (record :: r.1, r.2)

/-- Record-fetch step of `HandleDownloadZip` (handlers.go lines
184-188): a non-nil error from `GetFiles` answers 500
`Error retrieving files`, otherwise the records flow on. -/
def downloadZipFetch (lookup : Int → Option FileRec) (ids : List Int) :
    Except String (List FileRec) :=
  match GetFiles lookup ids with
  | (_, some _) => .error "Error retrieving files"
  | (records, none) => .ok records

/-- One uploaded file as seen by `HandleUpload`, with the outcomes of
its effectful steps: whether `fileHeader.Open` succeeds, whether
`io.ReadAll` succeeds (and with which bytes), and whether the
`SaveFile` insert succeeds. -/
structure UploadFile where
  filename : String
  openOk : Bool
  readOk : Bool
  saveOk : Bool
  data : ByteSeq
deriving Repr, DecidableEq

/-- Row inserted by `Database.SaveFile`. -/
structure SavedRec where
  originalName : String
  pdfData : ConvOutput
deriving Repr, DecidableEq

/-- Conversion/persistence loop of `HandleUpload` (handlers.go lines
58-93) acting on the list of stored records: open and read failures
skip the file (`continue`); a conversion error responds 400 and returns
at once, persisting nothing further; a successful conversion is saved
(a failed insert is skipped with `continue`). -/
def uploadLoop (w : World) (decode : Decoder) :
    List UploadFile → List SavedRec → List SavedRec
  | [], db => db
  | f :: rest, db =>
    if ¬ f.openOk then uploadLoop w decode rest db
    else if ¬ f.readOk then uploadLoop w decode rest db
    else
      match (ConvertToPDF w decode f.filename f.data).1 with
      | .error _ => db
      | .ok out =>
        if f.saveOk then
          uploadLoop w decode rest
            (db ++ [{ originalName := f.filename, pdfData := out }])
        else uploadLoop w decode rest db

/-! ### Helper lemmas -/

/-- Closed form of the pixel-to-mm conversion factor. -/
theorem pxToMM_eq (x : ℚ) : pxToMM x = x * (127 / 360) := by
  unfold pxToMM
  norm_num
  ring

/-- Conversion to mm is strictly monotone. -/
theorem pxToMM_lt_iff {a b : ℚ} : pxToMM a < pxToMM b ↔ a < b := by
  rw [pxToMM_eq, pxToMM_eq]
  exact mul_lt_mul_right (by norm_num)

/-- Conversion to mm is monotone. -/
theorem pxToMM_le_iff {a b : ℚ} : pxToMM a ≤ pxToMM b ↔ a ≤ b := by
  rw [pxToMM_eq, pxToMM_eq]
  exact mul_le_mul_right (by norm_num)

/-- The emitted page width never exceeds 297 mm. -/
theorem imagePageSize_wd_le {w h : ℚ} (_hw : 0 ≤ w) (hh : 0 ≤ h) :
    (imagePageSize w h).wd ≤ 297 := by
  simp only [imagePageSize]
  split_ifs with h1 h2
  · norm_num [maxWidthA4]
  · have hwh : w ≤ h := by
      have h2' : pxToMM w ≤ pxToMM h := not_lt.mp h2
      rwa [pxToMM_le_iff] at h2'
    rcases eq_or_lt_of_le hh with hh0 | hh0
    · rw [← hh0]
      simp [maxHeightA4]
    · have hr : w / h ≤ 1 := (div_le_one hh0).mpr hwh
      calc maxHeightA4 * (w / h) ≤ maxHeightA4 * 1 :=
            mul_le_mul_of_nonneg_left hr (by norm_num [maxHeightA4])
        _ = 297 := by norm_num [maxHeightA4]
  · push_neg at h1
    calc pxToMM w ≤ maxWidthA4 := h1.1
      _ ≤ 297 := by norm_num [maxWidthA4]

/-- The emitted page height never exceeds 297 mm. -/
theorem imagePageSize_ht_le {w h : ℚ} (_hw : 0 ≤ w) (hh : 0 ≤ h) :
    (imagePageSize w h).ht ≤ 297 := by
  simp only [imagePageSize]
  split_ifs with h1 h2
  · have hhw : h < w := pxToMM_lt_iff.mp h2
    rcases eq_or_lt_of_le hh with hh0 | hh0
    · rw [← hh0]
      simp [maxWidthA4]
    · have hr1 : 1 ≤ w / h := ((one_lt_div hh0).mpr hhw).le
      calc maxWidthA4 / (w / h) ≤ maxWidthA4 := div_le_self (by norm_num [maxWidthA4]) hr1
        _ ≤ 297 := by norm_num [maxWidthA4]
  · norm_num [maxHeightA4]
  · push_neg at h1
    calc pxToMM h ≤ maxHeightA4 := h1.2
      _ ≤ 297 := by norm_num [maxHeightA4]

/-- Evaluation of `convertImageToPDF` on a decodable input. -/
theorem convertImageToPDF_eq (decode : Decoder) (fn : String) (data : ByteSeq)
    (dx dy : Nat) (h : decode data = some (dx, dy)) :
    convertImageToPDF decode fn data =
      .ok (.imagePDF (imagePageSize (dx : ℚ) (dy : ℚ))
        { name := fn, x := 0, y := 0,
          w := (imagePageSize (dx : ℚ) (dy : ℚ)).wd,
          h := (imagePageSize (dx : ℚ) (dy : ℚ)).ht,
          imageType := if goToLower (filepathExt fn) = ".png" then "png" else "jpg",
          data := data }) := by
  simp only [convertImageToPDF, h]

/-- Splitting never produces an empty list of pieces. -/
theorem splitOnByte_ne_nil (sep : Nat) : ∀ data : ByteSeq, splitOnByte sep data ≠ []
  | [] => by simp [splitOnByte]
  | b :: rest => by
    by_cases hb : b = sep
    · simp [splitOnByte, hb]
    · rcases h : splitOnByte sep rest with _ | ⟨line, more⟩ <;>
        simp [splitOnByte, hb, h]

/-- Re-joining the pieces with the separator restores the input: no
piece is dropped, truncated, reordered or altered. -/
theorem joinLines_splitOnByte (sep : Nat) : ∀ data : ByteSeq,
    joinLines sep (splitOnByte sep data) = data
  | [] => rfl
  | b :: rest => by
    have ih := joinLines_splitOnByte sep rest
    rcases hS : splitOnByte sep rest with _ | ⟨l, ls⟩
    · exact absurd hS (splitOnByte_ne_nil sep rest)
    · rw [hS] at ih
      by_cases hb : b = sep
      · subst hb
        simp only [splitOnByte, if_pos rfl, hS, joinLines]
        simpa using ih
      · simp only [splitOnByte, if_neg hb, hS]
        cases ls with
        | nil =>
          simp only [joinLines] at ih ⊢
          rw [ih]
        | cons m ms =>
          simp only [joinLines] at ih ⊢
          rw [List.cons_append, ih]

/-- `GetFiles` evaluates to the in-order surviving lookups with a `nil`
error. -/
theorem GetFiles_eq (lookup : Int → Option FileRec) :
    ∀ ids : List Int, GetFiles lookup ids = (ids.filterMap lookup, none)
  | [] => rfl
  | id :: rest => by
    have ih := GetFiles_eq lookup rest
    simp only [GetFiles, ih, List.filterMap_cons]
    rcases lookup id with _ | record <;> simp

/-! ### Claim theorems -/

/-- C1 counterexample: a decodable 1000×1000 pixel image exceeds A4
(352.8 mm each way), yet the emitted page is 297 mm × 297 mm — its width
is NOT at most 210 mm, refuting the claim as stated. -/
theorem C1_counterexample :
    ∃ im : ImagePlacement,
      convertImageToPDF (fun _ => some (1000, 1000)) "square.png" [0] =
        .ok (.imagePDF ⟨297, 297⟩ im) ∧ ¬ ((297 : ℚ) ≤ 210) := by
  have hsize : imagePageSize ((1000 : ℕ) : ℚ) ((1000 : ℕ) : ℚ) = ⟨297, 297⟩ := by
    simp only [imagePageSize, pxToMM, maxWidthA4, maxHeightA4]
    norm_num
  refine ⟨⟨"square.png", 0, 0, 297, 297, "png", [0]⟩, ?_, by norm_num⟩
  rw [convertImageToPDF_eq (fun _ => some (1000, 1000)) "square.png" [0] 1000 1000 rfl,
    hsize]
  rfl

/-- C1 (amended): for every supported image input that
`convertImageToPDF` converts successfully, the emitted PDF is a single
page whose width and height are each at most 297 mm (the width bound is
297 mm, not 210 mm). -/
theorem C1_page_bounds (decode : Decoder) (fn : String) (data : ByteSeq)
    (dx dy : Nat) (h : decode data = some (dx, dy)) :
    ∃ pg im, convertImageToPDF decode fn data = .ok (.imagePDF pg im) ∧
      pg.wd ≤ 297 ∧ pg.ht ≤ 297 :=
  ⟨_, _, convertImageToPDF_eq decode fn data dx dy h,
    imagePageSize_wd_le (Nat.cast_nonneg dx) (Nat.cast_nonneg dy),
    imagePageSize_ht_le (Nat.cast_nonneg dx) (Nat.cast_nonneg dy)⟩

/-- C1 witness: the bounds theorem applied to a decodable 1000×1000
image. -/
theorem C1_page_bounds_witness :
    ∃ pg im, convertImageToPDF (fun _ => some (1000, 1000)) "face.png" [2] =
        .ok (.imagePDF pg im) ∧ pg.wd ≤ 297 ∧ pg.ht ≤ 297 :=
  C1_page_bounds (fun _ => some (1000, 1000)) "face.png" [2] 1000 1000 rfl

/-- C2 counterexample: a decodable 600×620 pixel image has
`widthMM ≈ 211.67 > 210` overflowing A4 while `heightMM ≈ 218.72 ≤ 297`
does not, so the claim dictates clamping the width to 210 mm; the code
instead clamps the height to 297 mm (scaling the page up) and emits a
page of width 8910/31 ≈ 287.4 mm > 210 mm. -/
theorem C2_counterexample :
    ∃ im : ImagePlacement,
      convertImageToPDF (fun _ => some (600, 620)) "tall.jpg" [0] =
        .ok (.imagePDF ⟨8910 / 31, 297⟩ im) ∧
      maxWidthA4 < pxToMM ((600 : ℕ) : ℚ) ∧
      pxToMM ((620 : ℕ) : ℚ) ≤ maxHeightA4 ∧
      ¬ ((8910 / 31 : ℚ) ≤ 210) := by
  have hsize : imagePageSize ((600 : ℕ) : ℚ) ((620 : ℕ) : ℚ) = ⟨8910 / 31, 297⟩ := by
    simp only [imagePageSize, pxToMM, maxWidthA4, maxHeightA4]
    norm_num
  refine ⟨⟨"tall.jpg", 0, 0, 8910 / 31, 297, "jpg", [0]⟩, ?_,
    by norm_num [pxToMM, maxWidthA4], by norm_num [pxToMM, maxHeightA4], by norm_num⟩
  rw [convertImageToPDF_eq (fun _ => some (600, 620)) "tall.jpg" [0] 600 620 rfl, hsize]
  rfl

/-- C2 (amended): whenever the computed millimetre dimensions of a
decoded image exceed A4 in either direction, the code branches on which
millimetre dimension is larger — if the width is strictly larger it
clamps the width to 210 mm, otherwise it sets the height to 297 mm
(even when that scales the page up) — deriving the other dimension from
the source aspect ratio, so the output width/height ratio equals the
source pixel ratio; in particular a 10000×5000 pixel JPEG yields a page
of exactly 210 mm × 105 mm. -/
theorem C2_cap_branches (decode : Decoder) (fn : String) (data : ByteSeq)
    (dx dy : Nat) (h : decode data = some (dx, dy)) (hdx : 0 < dx) (hdy : 0 < dy)
    (hcap : maxWidthA4 < pxToMM (dx : ℚ) ∨ maxHeightA4 < pxToMM (dy : ℚ)) :
    ∃ pg im, convertImageToPDF decode fn data = .ok (.imagePDF pg im) ∧
      pg.wd / pg.ht = (dx : ℚ) / (dy : ℚ) ∧
      (pxToMM ((dy : ℕ) : ℚ) < pxToMM ((dx : ℕ) : ℚ) →
        pg = ⟨maxWidthA4, maxWidthA4 / ((dx : ℚ) / (dy : ℚ))⟩) ∧
      (¬ pxToMM ((dy : ℕ) : ℚ) < pxToMM ((dx : ℕ) : ℚ) →
        pg = ⟨maxHeightA4 * ((dx : ℚ) / (dy : ℚ)), maxHeightA4⟩) := by
  have hdx0 : ((dx : ℚ)) ≠ 0 := (Nat.cast_pos.mpr hdx).ne'
  have hdy0 : ((dy : ℚ)) ≠ 0 := (Nat.cast_pos.mpr hdy).ne'
  have hr0 : ((dx : ℚ) / (dy : ℚ)) ≠ 0 := div_ne_zero hdx0 hdy0
  have hps : imagePageSize (dx : ℚ) (dy : ℚ) =
      if pxToMM ((dy : ℕ) : ℚ) < pxToMM ((dx : ℕ) : ℚ) then
        (⟨maxWidthA4, maxWidthA4 / ((dx : ℚ) / (dy : ℚ))⟩ : SizeMM)
      else ⟨maxHeightA4 * ((dx : ℚ) / (dy : ℚ)), maxHeightA4⟩ := by
    simp only [imagePageSize]
    rw [if_pos hcap]
  refine ⟨_, _, convertImageToPDF_eq decode fn data dx dy h, ?_, ?_, ?_⟩
  · rw [hps]
    by_cases hlt : pxToMM ((dy : ℕ) : ℚ) < pxToMM ((dx : ℕ) : ℚ)
    · rw [if_pos hlt]
      show maxWidthA4 / (maxWidthA4 / ((dx : ℚ) / (dy : ℚ))) = (dx : ℚ) / (dy : ℚ)
      rw [div_div_eq_mul_div, mul_comm, mul_div_assoc,
        div_self (by norm_num [maxWidthA4] : maxWidthA4 ≠ 0), mul_one]
    · rw [if_neg hlt]
      show maxHeightA4 * ((dx : ℚ) / (dy : ℚ)) / maxHeightA4 = (dx : ℚ) / (dy : ℚ)
      rw [mul_comm, mul_div_assoc,
        div_self (by norm_num [maxHeightA4] : maxHeightA4 ≠ 0), mul_one]
  · intro hlt
    rw [hps, if_pos hlt]
  · intro hlt
    rw [hps, if_neg hlt]

/-- C2 witness: the branch theorem applied to a decodable 10000×5000
image produces a page of exactly 210 mm × 105 mm. -/
theorem C2_cap_branches_witness :
    ∃ im : ImagePlacement,
      convertImageToPDF (fun _ => some (10000, 5000)) "big.jpg" [3] =
        .ok (.imagePDF ⟨210, 105⟩ im) := by
  obtain ⟨pg, im, heq, _, hclamp, _⟩ :=
    C2_cap_branches (fun _ => some (10000, 5000)) "big.jpg" [3] 10000 5000 rfl
      (by norm_num) (by norm_num) (Or.inl (by norm_num [pxToMM, maxWidthA4]))
  have hpg : pg = ⟨210, 105⟩ := by
    rw [hclamp (by norm_num [pxToMM])]
    have h2 : ((10000 : ℕ) : ℚ) / ((5000 : ℕ) : ℚ) = 2 := by norm_num
    rw [h2]
    norm_num [maxWidthA4]
  exact ⟨im, hpg ▸ heq⟩

/-- C3 counterexample: for the filename `file.XYZ` the dispatcher fails
with `unsupported file type` carrying the lower-cased `.xyz`, not the
extension `.XYZ` as supplied. -/
theorem C3_counterexample :
    ConvertToPDF ⟨"/tmp", true, true, "", true, true, []⟩ (fun _ => none)
        "file.XYZ" [0] = (.error (.unsupportedFormat ".xyz"), []) ∧
      (".xyz" : String) ≠ ".XYZ" := by
  constructor
  · rfl
  · decide

/-- C3 (amended): `ConvertToPDF` dispatches on the lower-cased filename
extension — `.jpg`/`.jpeg`/`.png` to the image converter, `.txt` to the
text converter, `.docx` to the external-document converter — and for
any other extension returns no output bytes and an `UnsupportedFormat`
failure carrying the lower-cased (not as-supplied) extension. -/
theorem C3_dispatch (w : World) (decode : Decoder) (fn : String) (data : ByteSeq) :
    (goToLower (filepathExt fn) = ".jpg" ∨ goToLower (filepathExt fn) = ".jpeg" ∨
        goToLower (filepathExt fn) = ".png" →
      ConvertToPDF w decode fn data = (convertImageToPDF decode fn data, [])) ∧
    (goToLower (filepathExt fn) = ".txt" →
      ConvertToPDF w decode fn data = (convertTextToPDF fn data, [])) ∧
    (goToLower (filepathExt fn) = ".docx" →
      ConvertToPDF w decode fn data =
        (Except.map ConvOutput.docxPDF (convertDocxToPDF w fn data).1,
          (convertDocxToPDF w fn data).2)) ∧
    (goToLower (filepathExt fn) ≠ ".jpg" → goToLower (filepathExt fn) ≠ ".jpeg" →
      goToLower (filepathExt fn) ≠ ".png" → goToLower (filepathExt fn) ≠ ".txt" →
      goToLower (filepathExt fn) ≠ ".docx" →
      ConvertToPDF w decode fn data =
        (.error (.unsupportedFormat (goToLower (filepathExt fn))), [])) := by
  refine ⟨fun h => ?_, fun h => ?_, fun h => ?_, fun h1 h2 h3 h4 h5 => ?_⟩ <;>
    simp only [ConvertToPDF]
  · rw [if_pos h]
  · have hne : ¬ (goToLower (filepathExt fn) = ".jpg" ∨
        goToLower (filepathExt fn) = ".jpeg" ∨ goToLower (filepathExt fn) = ".png") := by
      rw [h]; decide
    rw [if_neg hne, if_pos h]
  · have hne : ¬ (goToLower (filepathExt fn) = ".jpg" ∨
        goToLower (filepathExt fn) = ".jpeg" ∨ goToLower (filepathExt fn) = ".png") := by
      rw [h]; decide
    have hne2 : goToLower (filepathExt fn) ≠ ".txt" := by rw [h]; decide
    rw [if_neg hne, if_neg hne2, if_pos h]
  · have hne : ¬ (goToLower (filepathExt fn) = ".jpg" ∨
        goToLower (filepathExt fn) = ".jpeg" ∨ goToLower (filepathExt fn) = ".png") := by
      rintro (hc | hc | hc)
      exacts [h1 hc, h2 hc, h3 hc]
    rw [if_neg hne, if_neg h4, if_neg h5]

/-- C3 witness: dispatch applied to a mixed-case `.PnG` filename (image
path) and to a mixed-case `.Md` filename (unsupported, lower-cased in
the error). -/
theorem C3_dispatch_witness :
    ConvertToPDF ⟨"/tmp", true, true, "", true, true, []⟩ (fun _ => none)
        "photo.PnG" [1] =
      (convertImageToPDF (fun _ => none) "photo.PnG" [1], []) ∧
    ConvertToPDF ⟨"/tmp", true, true, "", true, true, []⟩ (fun _ => none)
        "notes.Md" [1] = (.error (.unsupportedFormat ".md"), []) := by
  constructor
  · exact (C3_dispatch ⟨"/tmp", true, true, "", true, true, []⟩ (fun _ => none)
      "photo.PnG" [1]).1 (Or.inr (Or.inr (by decide)))
  · have h := (C3_dispatch ⟨"/tmp", true, true, "", true, true, []⟩ (fun _ => none)
      "notes.Md" [1]).2.2.2 (by decide) (by decide) (by decide) (by decide) (by decide)
    rw [h]
    rfl

/-- C4 (confirmed): `convertTextToPDF` hands the layout engine exactly
the newline-split lines of the input in order — re-joining the emitted
blocks with the newline byte restores the input byte-for-byte, so no
line is dropped, truncated, reordered or altered — and the three-line
text `a\nbb\nccc` produces exactly the blocks `a`, `bb`, `ccc`. -/
theorem C4_text_lines (fn : String) (data : ByteSeq) :
    ∃ blocks, convertTextToPDF fn data = .ok (.textPDF blocks) ∧
      blocks = splitOnByte newlineByte data ∧
      joinLines newlineByte blocks = data ∧
      (data = [97, 10, 98, 98, 10, 99, 99, 99] →
        blocks = [[97], [98, 98], [99, 99, 99]]) := by
  refine ⟨splitOnByte newlineByte data, rfl, rfl, joinLines_splitOnByte _ data, ?_⟩
  rintro rfl
  decide

/-- C4 witness: the line-preservation theorem applied to the three-line
text `a\nbb\nccc`. -/
theorem C4_text_lines_witness :
    ∃ blocks, convertTextToPDF "notes.txt" [97, 10, 98, 98, 10, 99, 99, 99] =
        .ok (.textPDF blocks) ∧
      blocks = splitOnByte newlineByte [97, 10, 98, 98, 10, 99, 99, 99] ∧
      joinLines newlineByte blocks = [97, 10, 98, 98, 10, 99, 99, 99] ∧
      ([97, 10, 98, 98, 10, 99, 99, 99] = [97, 10, 98, 98, 10, 99, 99, 99] →
        blocks = [[97], [98, 98], [99, 99, 99]]) :=
  C4_text_lines "notes.txt" [97, 10, 98, 98, 10, 99, 99, 99]

/-- C5 counterexample: when the temp input write and the external run
both succeed and the tool creates the expected output file but reading
it back fails, `convertDocxToPDF` returns before the output-removal
`defer` is registered, and the temp output file remains — refuting
cleanup on every exit path. -/
theorem C5_counterexample :
    convertDocxToPDF ⟨"/tmp", true, true, "", true, false, []⟩ "doc.docx" [0] =
      (.error (.outputReadError "/tmp/doc.pdf"), ["/tmp/doc.pdf"]) ∧
    (["/tmp/doc.pdf"] : List String) ≠ [] := by
  constructor
  · rfl
  · decide

/-- C5 (amended): `convertDocxToPDF` leaves no temp file behind on the
success path, nor whenever the external tool did not create the
expected output file (covering nonzero exit, launch failure and the
missing-output case); but when the output file exists and either the
external run failed or reading the file back fails, that output file
remains in the temp directory (the input temp file is always removed by
its `defer` once written). -/
theorem C5_cleanup (w : World) (fn : String) (data : ByteSeq) :
    (w.runOk = true → w.outputReadable = true → (convertDocxToPDF w fn data).2 = []) ∧
    (w.outputCreated = false → (convertDocxToPDF w fn data).2 = []) ∧
    (w.writeOk = true → w.runOk = true → w.outputCreated = true →
      w.outputReadable = false →
      (convertDocxToPDF w fn data).2 = [docxOutputPath w.tmpDir fn]) ∧
    (w.writeOk = true → w.runOk = false → w.outputCreated = true →
      (convertDocxToPDF w fn data).2 = [docxOutputPath w.tmpDir fn]) := by
  obtain ⟨dir, wOk, rOk, st, oc, ord, oct⟩ := w
  cases wOk <;> cases rOk <;> cases oc <;> cases ord <;>
    simp [convertDocxToPDF]

/-- C5 witness: the cleanup theorem applied to a fully successful call
(no residue) and to an unreadable-output call (the output file
remains). -/
theorem C5_cleanup_witness :
    (convertDocxToPDF ⟨"/tmp", true, true, "", true, true, [4]⟩ "ok.docx" [0]).2 = [] ∧
    (convertDocxToPDF ⟨"/tmp", true, true, "", true, false, []⟩ "bad.docx" [0]).2 =
      [docxOutputPath "/tmp" "bad.docx"] :=
  ⟨(C5_cleanup ⟨"/tmp", true, true, "", true, true, [4]⟩ "ok.docx" [0]).1 rfl rfl,
   (C5_cleanup ⟨"/tmp", true, true, "", true, false, []⟩ "bad.docx" [0]).2.2.1
     rfl rfl rfl rfl⟩

/-- C6 (confirmed): after the external process exits zero, the expected
output path is `<temp-dir>/<input-basename-without-extension>.pdf`, and
if no file exists there the call fails with an error identifying that
exact path and returns no output bytes (and leaves no temp file). -/
theorem C6_output_missing (w : World) (fn : String) (data : ByteSeq)
    (hw : w.writeOk = true) (hr : w.runOk = true) (hc : w.outputCreated = false) :
    convertDocxToPDF w fn data =
      (.error (.outputReadError
        (filepathJoin w.tmpDir (trimSuffix fn (filepathExt fn) ++ ".pdf"))), []) := by
  simp [convertDocxToPDF, docxOutputPath, hw, hr, hc]

/-- C6 witness: a zero-exit run with a missing output for
`report.docx` fails naming `/tmp/report.pdf` exactly. -/
theorem C6_output_missing_witness :
    convertDocxToPDF ⟨"/tmp", true, true, "", false, true, []⟩ "report.docx" [0] =
      (.error (.outputReadError "/tmp/report.pdf"), []) := by
  rw [C6_output_missing ⟨"/tmp", true, true, "", false, true, []⟩ "report.docx" [0]
    rfl rfl rfl]
  rfl

/-- C7 counterexample: two invocations of the image converter on
identical inputs that differ only in the clock reading produce
different output bytes — the embedded `/CreationDate` differs —
refuting byte-identity of the emitted PDF across program states. -/
theorem C7_counterexample :
    convertImageToPDFOutput 0 (fun _ => some (8, 4)) "x.jpg" [0] ≠
      convertImageToPDFOutput 1 (fun _ => some (8, 4)) "x.jpg" [0] := by
  have heq := convertImageToPDF_eq (fun _ => some (8, 4)) "x.jpg" [0] 8 4 rfl
  simp only [convertImageToPDFOutput, heq, Except.map]
  intro h
  have hd : creationDateBytes 0 = creationDateBytes 1 :=
    congrArg ImagePDFBytes.creationDate (Except.ok.inj h)
  exact absurd hd (by decide)

/-- C7 (amended): on the image path (`.jpg`/`.jpeg`/`.png`,
case-insensitively) the conversion depends on no external process,
file system or shared mutable state — its result is identical across
any two such program states and leaves no temp-directory residue — and
its layout content (page geometry, placed image) is identical across
invocations at different clock readings; the emitted bytes, however,
embed the clock-derived creation date that gofpdf's `Output` writes
because `SetCreationDate` is never called, so byte-identity is
guaranteed only for equal clock readings. -/
theorem C7_determinism_given_clock (clock1 clock2 : Nat) (w1 w2 : World)
    (decode : Decoder) (fn : String) (data : ByteSeq)
    (h : goToLower (filepathExt fn) = ".jpg" ∨ goToLower (filepathExt fn) = ".jpeg" ∨
      goToLower (filepathExt fn) = ".png") :
    ConvertToPDF w1 decode fn data = ConvertToPDF w2 decode fn data ∧
    (ConvertToPDF w1 decode fn data).2 = [] ∧
    Except.map ImagePDFBytes.content (convertImageToPDFOutput clock1 decode fn data) =
      Except.map ImagePDFBytes.content (convertImageToPDFOutput clock2 decode fn data) ∧
    (clock1 = clock2 →
      convertImageToPDFOutput clock1 decode fn data =
        convertImageToPDFOutput clock2 decode fn data) := by
  refine ⟨?_, ?_, ?_, ?_⟩
  · simp only [ConvertToPDF]
    rw [if_pos h, if_pos h]
  · simp only [ConvertToPDF]
    rw [if_pos h]
  · rcases hr : convertImageToPDF decode fn data with e | doc <;>
      simp [convertImageToPDFOutput, hr, Except.map]
  · rintro rfl
    rfl

/-- C7 witness: two maximally different worlds and two different clock
readings for a `.jpg` upload — state-independent result, no residue,
equal layout content. -/
theorem C7_determinism_given_clock_witness :
    ConvertToPDF ⟨"/tmp", true, true, "", true, true, []⟩
        (fun _ => some (8, 4)) "x.jpg" [0] =
      ConvertToPDF ⟨"/var/spool", false, false, "boom", false, false, [9]⟩
        (fun _ => some (8, 4)) "x.jpg" [0] ∧
    (ConvertToPDF ⟨"/tmp", true, true, "", true, true, []⟩
        (fun _ => some (8, 4)) "x.jpg" [0]).2 = [] ∧
    Except.map ImagePDFBytes.content
        (convertImageToPDFOutput 3 (fun _ => some (8, 4)) "x.jpg" [0]) =
      Except.map ImagePDFBytes.content
        (convertImageToPDFOutput 9 (fun _ => some (8, 4)) "x.jpg" [0]) ∧
    (3 = 9 →
      convertImageToPDFOutput 3 (fun _ => some (8, 4)) "x.jpg" [0] =
        convertImageToPDFOutput 9 (fun _ => some (8, 4)) "x.jpg" [0]) :=
  C7_determinism_given_clock 3 9 ⟨"/tmp", true, true, "", true, true, []⟩
    ⟨"/var/spool", false, false, "boom", false, false, [9]⟩
    (fun _ => some (8, 4)) "x.jpg" [0] (Or.inl (by decide))

/-- C8 (confirmed): when both millimetre-converted dimensions fit A4
(width at most 210 mm, height at most 297 mm), the emitted page equals
exactly the unscaled `(px / 72) * 25.4` values, no capping applied. -/
theorem C8_no_cap (decode : Decoder) (fn : String) (data : ByteSeq)
    (dx dy : Nat) (h : decode data = some (dx, dy))
    (hw : pxToMM ((dx : ℕ) : ℚ) ≤ maxWidthA4) (hh : pxToMM ((dy : ℕ) : ℚ) ≤ maxHeightA4) :
    ∃ im, convertImageToPDF decode fn data =
      .ok (.imagePDF ⟨pxToMM ((dx : ℕ) : ℚ), pxToMM ((dy : ℕ) : ℚ)⟩ im) := by
  have hps : imagePageSize ((dx : ℕ) : ℚ) ((dy : ℕ) : ℚ) =
      ⟨pxToMM ((dx : ℕ) : ℚ), pxToMM ((dy : ℕ) : ℚ)⟩ := by
    simp only [imagePageSize]
    rw [if_neg]
    push_neg
    exact ⟨hw, hh⟩
  refine ⟨⟨fn, 0, 0, pxToMM ((dx : ℕ) : ℚ), pxToMM ((dy : ℕ) : ℚ),
    if goToLower (filepathExt fn) = ".png" then "png" else "jpg", data⟩, ?_⟩
  rw [convertImageToPDF_eq decode fn data dx dy h, hps]

/-- C8 witness: a 100×50 pixel PNG yields a page of exactly
`(100 / 72) * 25.4` mm by `(50 / 72) * 25.4` mm. -/
theorem C8_no_cap_witness :
    pxToMM ((100 : ℕ) : ℚ) = (100 / 72) * 25.4 ∧
    pxToMM ((50 : ℕ) : ℚ) = (50 / 72) * 25.4 ∧
    ∃ im, convertImageToPDF (fun _ => some (100, 50)) "photo.png" [5] =
      .ok (.imagePDF ⟨pxToMM ((100 : ℕ) : ℚ), pxToMM ((50 : ℕ) : ℚ)⟩ im) :=
  ⟨by norm_num [pxToMM], by norm_num [pxToMM],
   C8_no_cap (fun _ => some (100, 50)) "photo.png" [5] 100 50 rfl
     (by norm_num [pxToMM, maxWidthA4]) (by norm_num [pxToMM, maxHeightA4])⟩

/-- C9 (confirmed): the upload loop persists a record only for files
whose conversion returned output bytes with a nil error — the stored
records after a request are the prior ones followed only by records
whose `pdf_data` is the complete output of a successful `ConvertToPDF`
call on one of the uploaded files. -/
theorem C9_only_successful_persisted (w : World) (decode : Decoder) :
    ∀ (files : List UploadFile) (db : List SavedRec),
      ∃ news, uploadLoop w decode files db = db ++ news ∧
        ∀ r ∈ news, ∃ f ∈ files, f.openOk = true ∧ f.readOk = true ∧
          (ConvertToPDF w decode f.filename f.data).1 = .ok r.pdfData ∧
          r.originalName = f.filename := by
  intro files
  induction files with
  | nil =>
    intro db
    exact ⟨[], by simp [uploadLoop], by simp⟩
  | cons f rest ih =>
    intro db
    by_cases ho : f.openOk
    · by_cases hrd : f.readOk
      · rcases hc : (ConvertToPDF w decode f.filename f.data).1 with e | out
        · refine ⟨[], ?_, by simp⟩
          simp [uploadLoop, ho, hrd, hc]
        · by_cases hs : f.saveOk
          · obtain ⟨news, hloop, hmem⟩ := ih (db ++ [⟨f.filename, out⟩])
            refine ⟨⟨f.filename, out⟩ :: news, ?_, ?_⟩
            · rw [show uploadLoop w decode (f :: rest) db =
                  uploadLoop w decode rest (db ++ [⟨f.filename, out⟩]) by
                simp [uploadLoop, ho, hrd, hc, hs], hloop]
              simp
            · intro r hr
              rcases List.mem_cons.mp hr with rfl | hr
              · exact ⟨f, List.mem_cons_self f rest, by simp [ho], by simp [hrd],
                  by rw [hc], rfl⟩
              · obtain ⟨f', hf', h1, h2, h3, h4⟩ := hmem r hr
                exact ⟨f', List.mem_cons_of_mem f hf', h1, h2, h3, h4⟩
          · obtain ⟨news, hloop, hmem⟩ := ih db
            refine ⟨news, ?_, ?_⟩
            · rw [show uploadLoop w decode (f :: rest) db =
                  uploadLoop w decode rest db by simp [uploadLoop, ho, hrd, hc, hs]]
              exact hloop
            · intro r hr
              obtain ⟨f', hf', h1, h2, h3, h4⟩ := hmem r hr
              exact ⟨f', List.mem_cons_of_mem f hf', h1, h2, h3, h4⟩
      · obtain ⟨news, hloop, hmem⟩ := ih db
        refine ⟨news, ?_, ?_⟩
        · rw [show uploadLoop w decode (f :: rest) db =
              uploadLoop w decode rest db by simp [uploadLoop, ho, hrd]]
          exact hloop
        · intro r hr
          obtain ⟨f', hf', h1, h2, h3, h4⟩ := hmem r hr
          exact ⟨f', List.mem_cons_of_mem f hf', h1, h2, h3, h4⟩
    · obtain ⟨news, hloop, hmem⟩ := ih db
      refine ⟨news, ?_, ?_⟩
      · rw [show uploadLoop w decode (f :: rest) db =
            uploadLoop w decode rest db by simp [uploadLoop, ho]]
        exact hloop
      · intro r hr
        obtain ⟨f', hf', h1, h2, h3, h4⟩ := hmem r hr
        exact ⟨f', List.mem_cons_of_mem f hf', h1, h2, h3, h4⟩

/-- C9 witness: the persistence theorem instantiated on a one-file
upload starting from an empty store. -/
theorem C9_only_successful_persisted_witness :
    ∃ news, uploadLoop ⟨"/tmp", true, true, "", true, true, []⟩ (fun _ => some (2, 3))
        [⟨"a.png", true, true, true, [7]⟩] [] = [] ++ news ∧
      ∀ r ∈ news, ∃ f ∈ [(⟨"a.png", true, true, true, [7]⟩ : UploadFile)],
        f.openOk = true ∧ f.readOk = true ∧
        (ConvertToPDF ⟨"/tmp", true, true, "", true, true, []⟩ (fun _ => some (2, 3))
          f.filename f.data).1 = .ok r.pdfData ∧
        r.originalName = f.filename :=
  C9_only_successful_persisted ⟨"/tmp", true, true, "", true, true, []⟩
    (fun _ => some (2, 3)) [⟨"a.png", true, true, true, [7]⟩] []

/-- C10 (confirmed): `Database.GetFiles` always returns a nil error,
skipping ids whose lookup fails and keeping the surviving records in
input order; hence the retrieval-error branch of `HandleDownloadZip`
is unreachable and a zip request including missing ids silently omits
them. -/
theorem C10_getfiles_never_errors (lookup : Int → Option FileRec) (ids : List Int) :
    (GetFiles lookup ids).2 = none ∧
    (GetFiles lookup ids).1 = ids.filterMap lookup ∧
    downloadZipFetch lookup ids = .ok (ids.filterMap lookup) := by
  refine ⟨by rw [GetFiles_eq], by rw [GetFiles_eq], ?_⟩
  simp [downloadZipFetch, GetFiles_eq]

end PdfConv
